import Mathlib

/-!
A verification development for the OptionGreek market-dashboard client.

The definitions below are a shallow embedding of the client-side code:

* `WSClient` & friends embed the reconnecting WebSocket wrapper of
  `frontend/lib/api.ts` (`connect` / `onopen` / `onclose` /
  `attemptReconnect` / `send`);
* `JValue`, `HttpResponse` and `apiFetch` embed the generic REST fetch
  wrapper `api.fetch`;
* the `apiAuthMethods` / `apiMarketMethods` / `apiOptionsMethods` lists
  embed the method names of the exported `api` object, and
  `panelApiCalls` the `api.<group>.<method>` call sites of the feature
  panels;
* `PollingEffect` and the per-panel values embed each panel's
  data-fetching `useEffect` / query configuration (mount fetch,
  `setInterval` period, cleanup);
* `ScannerState` / `scanStocks` embed the HighVolumeScanner fetch path
  and its error handling; `scannerErrorView` its error render;
* `handleAlert` embeds the `useAlerts` WebSocket alert reducer;
* `handleMarketUpdate` embeds the `useMarketData` `market_update`
  reducer;
* `displayedState`, `displayedAdjustmentSignal`, `optionRowIsATM` and
  `heatmapRowATM` embed the render-time data flow of
  MarketStateDetector, OptionChainTable and GreeksHeatmap.

Theorems about these definitions follow after all definitions.
-/

namespace OptionGreek

/-! ### JSON values

The client passes parsed JSON around as plain JS values.  `JValue` is a
flat model of the primitive values that appear in the fields the claims
touch; an object is an association list of fields (`JObj`). -/

inductive JValue where
  | vnull
  | vbool (b : Bool)
  | vnum (n : Int)
  | vstr (s : String)
deriving DecidableEq, Repr

abbrev JObj := List (String × JValue)

/-- JS truthiness of a `JValue` (`null`, `false`, `0` and `""` are falsy). -/
def jTruthy : JValue → Bool
  | JValue.vnull => false
  | JValue.vbool b => b
  | JValue.vnum n => decide (n ≠ 0)
  | JValue.vstr s => decide (s ≠ "")

/-- JS `String(v)` coercion for the primitive values of `JValue`. -/
def jToString : JValue → String
  | JValue.vnull => "null"
  | JValue.vbool true => "true"
  | JValue.vbool false => "false"
  | JValue.vnum n => toString n
  | JValue.vstr s => s

/-! ### WSClient (frontend/lib/api.ts, lines 92-162)

State relevant to reconnection is the `reconnectAttempts` counter.
`attemptReconnect` returns the updated client together with the delay it
passed to `setTimeout`, when it scheduled a reconnect at all.  The
`onopen` and `onclose` callbacks installed by `connect` are modelled as
the two events of `WSEvent`; `wsRun` folds a trace of such events, and
`wsScheduledDelays` collects the `setTimeout` delays scheduled along the
trace. -/

/-- `private reconnectInterval = 3000` of `WSClient`. -/
def reconnectInterval : Nat := 3000

/-- `private maxReconnectAttempts = 5` of `WSClient`. -/
def maxReconnectAttempts : Nat := 5

structure WSClient where
  reconnectAttempts : Nat
deriving DecidableEq, Repr

/-- `WSClient.attemptReconnect`: schedule `connect` after
`reconnectInterval` ms and bump the counter, but only while
`reconnectAttempts < maxReconnectAttempts`.  The second component is the
delay handed to `setTimeout` (`none` when nothing was scheduled). -/
def attemptReconnect (c : WSClient) : WSClient × Option Nat :=
  if c.reconnectAttempts < maxReconnectAttempts then
    ({ reconnectAttempts := c.reconnectAttempts + 1 }, some reconnectInterval)
  else
    (c, none)

inductive WSEvent where
  | wsopen
  | wsclose
deriving DecidableEq, Repr

/-- One socket event: `onopen` resets the counter to 0, `onclose` calls
`attemptReconnect`. -/
def wsStep (c : WSClient) : WSEvent → WSClient × Option Nat
  | WSEvent.wsopen => ({ reconnectAttempts := 0 }, none)
  | WSEvent.wsclose => attemptReconnect c

/-- Fold a trace of socket events over the client state. -/
def wsRun (c : WSClient) : List WSEvent → WSClient
  | [] => c
  | e :: es => wsRun (wsStep c e).1 es

/-- The `setTimeout` delays scheduled while handling a trace of socket
events, in order (each event contributes its scheduled delay, if any). -/
def wsScheduledDelays (c : WSClient) : List WSEvent → List Nat
  | [] => []
  | e :: es => (wsStep c e).2.toList ++ wsScheduledDelays (wsStep c e).1 es

end OptionGreek

namespace OptionGreek

/-! ### Lemmas about the WSClient reconnect loop -/

theorem wsStep_attempts_le (c : WSClient) (e : WSEvent)
    (h : c.reconnectAttempts ≤ maxReconnectAttempts) :
    (wsStep c e).1.reconnectAttempts ≤ maxReconnectAttempts := by
  cases e with
  | wsopen => simp [wsStep]
  | wsclose =>
      simp only [wsStep, attemptReconnect]
      split
      · next hlt => exact hlt
      · exact h

theorem wsStep_close_lt (c : WSClient)
    (hlt : c.reconnectAttempts < maxReconnectAttempts) :
    wsStep c WSEvent.wsclose =
      ({ reconnectAttempts := c.reconnectAttempts + 1 }, some reconnectInterval) := by
  simp only [wsStep, attemptReconnect, if_pos hlt]

theorem wsStep_close_ge (c : WSClient)
    (hge : ¬ c.reconnectAttempts < maxReconnectAttempts) :
    wsStep c WSEvent.wsclose = (c, none) := by
  simp only [wsStep, attemptReconnect, if_neg hge]

theorem wsRun_attempts_le (es : List WSEvent) (c : WSClient)
    (h : c.reconnectAttempts ≤ maxReconnectAttempts) :
    (wsRun c es).reconnectAttempts ≤ maxReconnectAttempts := by
  induction es generalizing c with
  | nil => exact h
  | cons e es ih => exact ih _ (wsStep_attempts_le c e h)

theorem wsScheduledDelays_length_le (es : List WSEvent) (c : WSClient)
    (hopen : WSEvent.wsopen ∉ es)
    (h : c.reconnectAttempts ≤ maxReconnectAttempts) :
    (wsScheduledDelays c es).length + c.reconnectAttempts ≤ maxReconnectAttempts := by
  induction es generalizing c with
  | nil => simpa [wsScheduledDelays] using h
  | cons e es ih =>
      cases e with
      | wsopen => exact absurd (List.mem_cons_self _ _) hopen
      | wsclose =>
          have hopen' : WSEvent.wsopen ∉ es := fun hm => hopen (List.mem_cons_of_mem _ hm)
          by_cases hlt : c.reconnectAttempts < maxReconnectAttempts
          · have ihs := ih { reconnectAttempts := c.reconnectAttempts + 1 } hopen' hlt
            simp only [wsScheduledDelays, wsStep_close_lt c hlt, Option.toList,
              List.singleton_append, List.length_cons] at ihs ⊢
            omega
          · have ihs := ih c hopen' h
            simp only [wsScheduledDelays, wsStep_close_ge c hlt, Option.toList,
              List.nil_append] at ihs ⊢
            omega

theorem wsRun_append (es es' : List WSEvent) (c : WSClient) :
    wsRun c (es ++ es') = wsRun (wsRun c es) es' := by
  induction es generalizing c with
  | nil => rfl
  | cons e es ih => simpa [wsRun] using ih (wsStep c e).1

theorem wsScheduledDelays_replicate_close (k : Nat) (a : Nat)
    (h : a + k ≤ maxReconnectAttempts) :
    (wsScheduledDelays { reconnectAttempts := a }
        (List.replicate k WSEvent.wsclose)).length = k := by
  induction k generalizing a with
  | zero => rfl
  | succ k ih =>
      have hlt : ({ reconnectAttempts := a } : WSClient).reconnectAttempts
          < maxReconnectAttempts := by
        simpa using by omega
      have h' : (a + 1) + k ≤ maxReconnectAttempts := by omega
      simp only [List.replicate_succ, wsScheduledDelays, wsStep_close_lt _ hlt,
        Option.toList, List.singleton_append, List.length_cons]
      simpa using ih (a + 1) h'

theorem wsScheduledDelays_mem_eq (es : List WSEvent) (c : WSClient) (d : Nat)
    (h : d ∈ wsScheduledDelays c es) : d = reconnectInterval := by
  induction es generalizing c with
  | nil => simp [wsScheduledDelays] at h
  | cons e es ih =>
      cases e with
      | wsopen =>
          simp only [wsScheduledDelays, wsStep, Option.toList, List.nil_append] at h
          exact ih _ h
      | wsclose =>
          by_cases hlt : c.reconnectAttempts < maxReconnectAttempts
          · simp only [wsScheduledDelays, wsStep_close_lt c hlt, Option.toList,
              List.singleton_append, List.mem_cons] at h
            rcases h with h | h
            · exact h
            · exact ih _ h
          · simp only [wsScheduledDelays, wsStep_close_ge c hlt, Option.toList,
              List.nil_append] at h
            exact ih _ h

/-- C1: the WSClient's reconnection is bounded.  Along every event trace
the counter stays at most `maxReconnectAttempts` (5); in any stretch of
the trace with no successful open, at most `5 - reconnectAttempts ≤ 5`
reconnect timers are scheduled; a successful open resets the counter to
0, after which a fresh run of closes again schedules 5 reconnect
attempts. -/
theorem wsclient_reconnect_bounded (c : WSClient) (es : List WSEvent)
    (h : c.reconnectAttempts ≤ maxReconnectAttempts) :
    (wsRun c es).reconnectAttempts ≤ maxReconnectAttempts ∧
    (WSEvent.wsopen ∉ es →
      (wsScheduledDelays c es).length + c.reconnectAttempts ≤ maxReconnectAttempts) ∧
    (wsRun c (es ++ [WSEvent.wsopen])).reconnectAttempts = 0 ∧
    (wsScheduledDelays (wsRun c (es ++ [WSEvent.wsopen]))
        (List.replicate 5 WSEvent.wsclose)).length = 5 := by
  refine ⟨wsRun_attempts_le es c h, fun hopen => wsScheduledDelays_length_le es c hopen h, ?_, ?_⟩
  · rw [wsRun_append]
    rfl
  · rw [wsRun_append]
    show (wsScheduledDelays { reconnectAttempts := 0 }
        (List.replicate 5 WSEvent.wsclose)).length = 5
    exact wsScheduledDelays_replicate_close 5 0 (by decide)

/-- Witness for C1 at a concrete trace of seven consecutive closes. -/
theorem wsclient_reconnect_bounded_witness :
    (wsRun { reconnectAttempts := 0 }
        (List.replicate 7 WSEvent.wsclose)).reconnectAttempts ≤ maxReconnectAttempts ∧
    (wsScheduledDelays { reconnectAttempts := 0 }
        (List.replicate 7 WSEvent.wsclose)).length + 0 ≤ maxReconnectAttempts ∧
    (wsRun { reconnectAttempts := 0 }
        (List.replicate 7 WSEvent.wsclose ++ [WSEvent.wsopen])).reconnectAttempts = 0 := by
  have t := wsclient_reconnect_bounded { reconnectAttempts := 0 }
    (List.replicate 7 WSEvent.wsclose) (by decide)
  exact ⟨t.1, t.2.1 (by decide), t.2.2.1⟩

/-- C2 counterexample: two consecutive failed reconnection attempts from
a fresh client schedule the delays `[3000, 3000]` - the wait between
retries stays constant, it does not grow. -/
theorem ws_backoff_growth_counterexample :
    wsScheduledDelays { reconnectAttempts := 0 }
        [WSEvent.wsclose, WSEvent.wsclose] = [3000, 3000] ∧
    ¬ List.Chain' (fun a b => a < b)
        (wsScheduledDelays { reconnectAttempts := 0 }
          [WSEvent.wsclose, WSEvent.wsclose]) := by
  constructor
  · rfl
  · intro hch
    rw [show wsScheduledDelays { reconnectAttempts := 0 }
        [WSEvent.wsclose, WSEvent.wsclose] = [3000, 3000] from rfl] at hch
    have hlt : (3000 : Nat) < 3000 := (List.chain'_cons.mp hch).1
    omega

/-- C2 amended: every delay the WSClient ever schedules between retries
equals the fixed `reconnectInterval` of 3000 ms. -/
theorem ws_backoff_constant (c : WSClient) (es : List WSEvent) (d : Nat)
    (h : d ∈ wsScheduledDelays c es) : d = reconnectInterval :=
  wsScheduledDelays_mem_eq es c d h

/-- Witness for the amended C2 at a concrete one-close trace. -/
theorem ws_backoff_constant_witness :
    3000 ∈ wsScheduledDelays { reconnectAttempts := 0 } [WSEvent.wsclose] ∧
    3000 = reconnectInterval :=
  ⟨by decide,
   ws_backoff_constant { reconnectAttempts := 0 } [WSEvent.wsclose] 3000 (by decide)⟩

end OptionGreek

namespace OptionGreek

/-! ### api.fetch (frontend/lib/api.ts, lines 21-37)

`apiFetch` embeds the error-handling of the generic fetch wrapper.  An
`HttpResponse` carries `response.ok`, `response.status` and the result
of `response.json()` (`none` when the body is not parseable JSON, in
which case `.catch(() => ({}))` substitutes the empty object on the
error path).  On `ok` the parsed body is returned; otherwise an `Error`
is thrown whose message is `errorData.detail || "Request failed with
status <status>"`. -/

structure HttpResponse where
  ok : Bool
  status : Nat
  jsonBody : Option JObj
deriving DecidableEq, Repr

inductive FetchOutcome where
  | success (body : JObj)
  | thrown (message : String)
  | parseFailure
deriving DecidableEq, Repr

def apiFetch (resp : HttpResponse) : FetchOutcome :=
  if resp.ok then
    match resp.jsonBody with
    | some body => FetchOutcome.success body
    | none => FetchOutcome.parseFailure
  else
    let errorData : JObj := resp.jsonBody.getD []
    match errorData.lookup "detail" with
    | some v =>
        if jTruthy v then FetchOutcome.thrown (jToString v)
        else FetchOutcome.thrown ("Request failed with status " ++ toString resp.status)
    | none => FetchOutcome.thrown ("Request failed with status " ++ toString resp.status)

/-! ### WSClient.send (frontend/lib/api.ts, lines 140-147) -/

/-- The `readyState` values of a browser WebSocket. -/
inductive ReadyState where
  | CONNECTING
  | OPEN
  | CLOSING
  | CLOSED
deriving DecidableEq, Repr

inductive WSSendAction where
  | transmitFrame (frame : String)
  | startConnect
deriving DecidableEq, Repr

/-- `WSClient.send`: when `this.ws` exists and its `readyState` is
`OPEN`, the payload is serialized and transmitted; otherwise the payload
is dropped and `this.connect()` is called.  `JSON.stringify` is a
platform builtin and is passed in as the serializer `stringify`.  The
result is the list of externally visible actions the call performs. -/
def wsSend {α : Type} (stringify : α → String) (ws : Option ReadyState) (data : α) :
    List WSSendAction :=
  match ws with
  | some rs =>
      if rs = ReadyState.OPEN then [WSSendAction.transmitFrame (stringify data)]
      else [WSSendAction.startConnect]
  | none => [WSSendAction.startConnect]

/-- C3 counterexample: a failed response whose body has a `detail` field
that is present and parseable (the empty string) is reported with the
generic status message, not with the `detail` field, because
`errorData.detail ||` tests JS truthiness rather than presence. -/
theorem api_fetch_detail_counterexample :
    ((({ ok := false, status := 500,
          jsonBody := some [("detail", JValue.vstr "")] } : HttpResponse)).jsonBody.getD
        []).lookup "detail" = some (JValue.vstr "") ∧
    apiFetch { ok := false, status := 500, jsonBody := some [("detail", JValue.vstr "")] }
      = FetchOutcome.thrown "Request failed with status 500" ∧
    ("Request failed with status 500" : String) ≠ jToString (JValue.vstr "") := by
  refine ⟨rfl, rfl, ?_⟩
  decide

/-- C3 amended: `api.fetch` returns the parsed JSON body exactly when
`response.ok`; otherwise it throws an `Error` whose message is the
body's `detail` field when that field is present, parseable and truthy
(in particular a non-empty string), and the string
`"Request failed with status <status>"` otherwise. -/
theorem api_fetch_spec (resp : HttpResponse) :
    (∀ body, resp.ok = true → resp.jsonBody = some body →
        apiFetch resp = FetchOutcome.success body) ∧
    (resp.ok = false →
      (∃ v, (resp.jsonBody.getD []).lookup "detail" = some v ∧ jTruthy v = true ∧
          apiFetch resp = FetchOutcome.thrown (jToString v)) ∨
      (apiFetch resp
          = FetchOutcome.thrown ("Request failed with status " ++ toString resp.status) ∧
        ∀ v, (resp.jsonBody.getD []).lookup "detail" = some v → jTruthy v = false)) := by
  constructor
  · intro body hok hbody
    simp [apiFetch, hok, hbody]
  · intro hok
    rcases hv : (resp.jsonBody.getD []).lookup "detail" with _ | v
    · right
      refine ⟨?_, fun v hv' => Option.noConfusion hv'⟩
      simp [apiFetch, hok, hv]
    · rcases ht : jTruthy v with _ | _
      · right
        refine ⟨?_, fun v' hv' => (Option.some.inj hv') ▸ ht⟩
        simp [apiFetch, hok, hv, ht]
      · left
        exact ⟨v, rfl, ht, by simp [apiFetch, hok, hv, ht]⟩

/-- Witness for the amended C3 at concrete responses: a successful
response returns its body, a 404 whose `detail` is the non-empty string
"not found" throws that detail. -/
theorem api_fetch_spec_witness :
    apiFetch { ok := true, status := 200, jsonBody := some [("x", JValue.vnum 1)] }
      = FetchOutcome.success [("x", JValue.vnum 1)] ∧
    ((∃ v, ((some [("detail", JValue.vstr "not found")] : Option JObj).getD []).lookup "detail"
              = some v ∧ jTruthy v = true ∧
            apiFetch { ok := false, status := 404, jsonBody := some [("detail", JValue.vstr "not found")] }
              = FetchOutcome.thrown (jToString v)) ∨
      (apiFetch { ok := false, status := 404, jsonBody := some [("detail", JValue.vstr "not found")] }
          = FetchOutcome.thrown ("Request failed with status " ++ toString (404 : Nat)) ∧
        ∀ v, ((some [("detail", JValue.vstr "not found")] : Option JObj).getD []).lookup "detail"
            = some v → jTruthy v = false)) :=
  ⟨(api_fetch_spec { ok := true, status := 200, jsonBody := some [("x", JValue.vnum 1)] }).1 _ rfl rfl,
   (api_fetch_spec { ok := false, status := 404, jsonBody := some [("detail", JValue.vstr "not found")] }).2 rfl⟩

/-- C8: `WSClient.send` never queues or transmits over a non-open
socket.  When the socket is `OPEN` the serialized payload is the one
frame sent; when the socket is null or in any other state the call only
starts a new connection - no frame is transmitted and nothing is
buffered. -/
theorem wsclient_send_only_when_open {α : Type} (stringify : α → String)
    (ws : Option ReadyState) (data : α) :
    (ws = some ReadyState.OPEN →
      wsSend stringify ws data = [WSSendAction.transmitFrame (stringify data)]) ∧
    (ws ≠ some ReadyState.OPEN →
      wsSend stringify ws data = [WSSendAction.startConnect] ∧
      ∀ f, WSSendAction.transmitFrame f ∉ wsSend stringify ws data) := by
  constructor
  · intro hop
    subst hop
    simp [wsSend]
  · intro hne
    have hsend : wsSend stringify ws data = [WSSendAction.startConnect] := by
      cases ws with
      | none => rfl
      | some rs =>
          have hrs : rs ≠ ReadyState.OPEN := fun h => hne (by rw [h])
          simp [wsSend, hrs]
    refine ⟨hsend, fun f hf => ?_⟩
    rw [hsend] at hf
    simp at hf

/-- Witness for C8: a numeric payload through `toString` on an `OPEN`
socket and on a null socket. -/
theorem wsclient_send_only_when_open_witness :
    wsSend toString (some ReadyState.OPEN) (5 : Nat)
      = [WSSendAction.transmitFrame (toString (5 : Nat))] ∧
    wsSend toString (none : Option ReadyState) (5 : Nat)
      = [WSSendAction.startConnect] :=
  ⟨(wsclient_send_only_when_open toString (some ReadyState.OPEN) (5 : Nat)).1 rfl,
   ((wsclient_send_only_when_open toString (none : Option ReadyState) (5 : Nat)).2
      (by decide)).1⟩

end OptionGreek

namespace OptionGreek

/-! ### useAlerts (unnamed hook file, lines 27-88)

The alert reducer prepends the freshly received alert, deduplicates by
message keeping the first occurrence
(`index === self.findIndex(a => a.message === alert.message)`), and caps
the list at 5 entries (`unique.slice(0, 5)`). -/

inductive AlertType where
  | info
  | warning
  | signal
deriving DecidableEq, Repr

structure RealtimeAlert where
  id : Int
  type : AlertType
  message : String
  timestamp : Int
deriving DecidableEq, Repr

/-- `normalizeType`: lowercase the raw string, map unknown types to
`info`. -/
def normalizeType (raw : Option String) : AlertType :=
  let value := (raw.getD "").toLower
  if value = "signal" then AlertType.signal
  else if value = "warning" then AlertType.warning
  else AlertType.info

/-- Keep only the first occurrence of each message (`seen` carries the
messages already emitted; the JS code expresses the same filter through
`findIndex`). -/
def dedupSeen (seen : List String) : List RealtimeAlert → List RealtimeAlert
  | [] => []
  | a :: rest =>
      if a.message ∈ seen then dedupSeen seen rest
      else a :: dedupSeen (a.message :: seen) rest

def dedupByMessage (l : List RealtimeAlert) : List RealtimeAlert := dedupSeen [] l

/-- The `setAlerts` updater run for one incoming alert: prepend,
deduplicate by message, keep the first 5. -/
def handleAlert (a : RealtimeAlert) (prev : List RealtimeAlert) : List RealtimeAlert :=
  (dedupByMessage (a :: prev)).take 5

theorem dedupSeen_sublist (l : List RealtimeAlert) (seen : List String) :
    (dedupSeen seen l).Sublist l := by
  induction l generalizing seen with
  | nil => simp [dedupSeen]
  | cons a rest ih =>
      by_cases hm : a.message ∈ seen
      · simp only [dedupSeen, if_pos hm]
        exact (ih seen).trans (List.sublist_cons_self a rest)
      · simp only [dedupSeen, if_neg hm]
        exact (ih (a.message :: seen)).cons₂ a

theorem dedupSeen_messages_nodup (l : List RealtimeAlert) (seen : List String) :
    ((dedupSeen seen l).map (fun a => a.message)).Nodup ∧
    ∀ a ∈ dedupSeen seen l, a.message ∉ seen := by
  induction l generalizing seen with
  | nil => simp [dedupSeen]
  | cons a rest ih =>
      by_cases hm : a.message ∈ seen
      · simp only [dedupSeen, if_pos hm]
        exact ih seen
      · obtain ⟨ihn, ihs⟩ := ih (a.message :: seen)
        simp only [dedupSeen, if_neg hm, List.map_cons, List.nodup_cons, List.mem_map]
        refine ⟨⟨?_, ihn⟩, ?_⟩
        · rintro ⟨b, hb, hbm⟩
          exact (ihs b hb) (by simp [hbm])
        · intro b hb
          rcases List.mem_cons.mp hb with hb | hb
          · subst hb
            exact hm
          · intro hbs
            exact (ihs b hb) (List.mem_cons_of_mem _ hbs)

theorem dedupByMessage_cons (a : RealtimeAlert) (prev : List RealtimeAlert) :
    dedupByMessage (a :: prev) = a :: dedupSeen [a.message] prev := by
  simp [dedupByMessage, dedupSeen]

/-- C9: after every handled alert message the list has at most 5
entries, no two entries share a message, the fresh alert is the head
(it wins deduplication over older entries with the same message), and
the surviving entries keep their newest-first order (the result is a
sublist of the fresh alert followed by the previous list). -/
theorem alerts_list_invariant (a : RealtimeAlert) (prev : List RealtimeAlert) :
    (handleAlert a prev).length ≤ 5 ∧
    ((handleAlert a prev).map (fun x => x.message)).Nodup ∧
    (handleAlert a prev).head? = some a ∧
    (handleAlert a prev).Sublist (a :: prev) := by
  refine ⟨?_, ?_, ?_, ?_⟩
  · exact List.length_take_le 5 _
  · have hn := (dedupSeen_messages_nodup (a :: prev) []).1
    have hsub : (handleAlert a prev).Sublist (dedupByMessage (a :: prev)) :=
      List.take_sublist _ _
    exact (hsub.map (fun x => x.message)).nodup hn
  · rw [handleAlert, dedupByMessage_cons]
    rfl
  · exact (List.take_sublist _ _).trans (dedupSeen_sublist (a :: prev) [])

end OptionGreek

namespace OptionGreek

/-! ### useMarketData (frontend/lib/hooks/useMarketData.ts, lines 14-34)

The `market_update` handler resolves the updated symbol as
`update.symbol || (update.d ? update.s : null)`, and when that value is
truthy replaces the entry for that one symbol with
`{ ...prev[symbol], ...update, last_updated: now }`. -/

/-- Overwrite key `k` of a string-keyed association list with value `v`
(any previous binding for `k` is gone; used for both an object literal's
explicit field and the computed `[symbol]` key). -/
def setPair {β : Type} (l : List (String × β)) (k : String) (v : β) :
    List (String × β) :=
  (l.filter (fun p => p.1 != k)) ++ [(k, v)]

/-- `{ ...base, ...upd }`: the fields of `upd` override those of
`base`. -/
def mergeObj (base upd : JObj) : JObj :=
  (base.filter (fun p => (upd.lookup p.1).isNone)) ++ upd

structure WSMessage where
  type : String
  data : Option JObj
deriving DecidableEq, Repr

/-- The per-symbol market data record held in the `data` state. -/
abbrev MarketData := List (String × JObj)

/-- `update.d ? update.s : null` (a missing field is `undefined`, the
`else` branch is the JS `null` value). -/
def symbolTernary (update : JObj) : Option JValue :=
  match update.lookup "d" with
  | some d => if jTruthy d then update.lookup "s" else some JValue.vnull
  | none => some JValue.vnull

/-- `update.symbol || (update.d ? update.s : null)`. -/
def resolveSymbolVal (update : JObj) : Option JValue :=
  match update.lookup "symbol" with
  | some v => if jTruthy v then some v else symbolTernary update
  | none => symbolTernary update

/-- `if (symbol)` guard plus the use of `symbol` as an object key (JS
coerces the key to a string). -/
def resolveSymbol (update : JObj) : Option String :=
  match resolveSymbolVal update with
  | some v => if jTruthy v then some (jToString v) else none
  | none => none

/-- `prev[symbol]`, where spreading a missing entry contributes no
fields. -/
def getEntry (md : MarketData) (sym : String) : JObj := (md.lookup sym).getD []

/-- The `setData` updater run for one incoming WebSocket message. -/
def handleMarketUpdate (now : Int) (prev : MarketData) (msg : WSMessage) :
    MarketData :=
  if msg.type = "market_update" then
    match msg.data with
    | some update =>
        match resolveSymbol update with
        | some sym =>
            setPair prev sym
              (setPair (mergeObj (getEntry prev sym) update) "last_updated"
                (JValue.vnum now))
        | none => prev
    | none => prev
  else prev

/-! ### Association list lookup lemmas -/

theorem lookup_filter_keep {β : Type} (k : String) (p : String × β → Bool)
    (hk : ∀ v, p (k, v) = true) :
    ∀ l : List (String × β), (l.filter p).lookup k = l.lookup k := by
  intro l
  induction l with
  | nil => rfl
  | cons a rest ih =>
      by_cases ha : k = a.1
      · have hpa : p a = true := by
          rcases a with ⟨a1, a2⟩
          simpa [ha] using hk a2
        have hbeq : (k == a.1) = true := by simpa using ha
        simp [List.filter_cons, hpa, List.lookup, hbeq]
      · have hbeq : (k == a.1) = false := by simpa using ha
        by_cases hpa : p a = true
        · simp [List.filter_cons, hpa, List.lookup, hbeq, ih]
        · simp only [Bool.not_eq_true] at hpa
          simp [List.filter_cons, hpa, List.lookup, hbeq, ih]

theorem lookup_filter_drop {β : Type} (k : String) (p : String × β → Bool)
    (hk : ∀ v, p (k, v) = false) :
    ∀ l : List (String × β), (l.filter p).lookup k = none := by
  intro l
  induction l with
  | nil => rfl
  | cons a rest ih =>
      by_cases ha : k = a.1
      · have hpa : p a = false := by
          rcases a with ⟨a1, a2⟩
          simpa [ha] using hk a2
        simp [List.filter_cons, hpa, ih]
      · have hbeq : (k == a.1) = false := by simpa using ha
        by_cases hpa : p a = true
        · simp [List.filter_cons, hpa, List.lookup, hbeq, ih]
        · simp only [Bool.not_eq_true] at hpa
          simp [List.filter_cons, hpa, ih]

theorem lookup_append_cases {β : Type} (k : String) (l₁ l₂ : List (String × β)) :
    (l₁ ++ l₂).lookup k =
      match l₁.lookup k with
      | some v => some v
      | none => l₂.lookup k := by
  induction l₁ with
  | nil => rfl
  | cons a rest ih =>
      by_cases ha : k = a.1
      · have hbeq : (k == a.1) = true := by simpa using ha
        simp [List.lookup, hbeq]
      · have hbeq : (k == a.1) = false := by simpa using ha
        simp [List.lookup, hbeq, ih]

theorem lookup_setPair_self {β : Type} (l : List (String × β)) (k : String) (v : β) :
    (setPair l k v).lookup k = some v := by
  have hdrop : (l.filter (fun p => p.1 != k)).lookup k = none := by
    refine lookup_filter_drop k _ (fun w => ?_) l
    simp
  rw [setPair, lookup_append_cases, hdrop]
  simp [List.lookup]

theorem lookup_setPair_ne {β : Type} (l : List (String × β)) (k k' : String) (v : β)
    (h : k' ≠ k) :
    (setPair l k v).lookup k' = l.lookup k' := by
  have hkeep : (l.filter (fun p => p.1 != k)).lookup k' = l.lookup k' := by
    refine lookup_filter_keep k' _ (fun w => ?_) l
    simpa using h
  have hbeq : (k' == k) = false := by simpa using h
  rw [setPair, lookup_append_cases, hkeep]
  cases hl : l.lookup k' with
  | none => simp [List.lookup, hbeq]
  | some w => rfl

theorem lookup_mergeObj (base upd : JObj) (k : String) :
    (mergeObj base upd).lookup k =
      match upd.lookup k with
      | some v => some v
      | none => base.lookup k := by
  rw [mergeObj, lookup_append_cases]
  cases hu : upd.lookup k with
  | some v =>
      have hdrop : (base.filter (fun p => (upd.lookup p.1).isNone)).lookup k = none := by
        refine lookup_filter_drop k _ (fun w => ?_) base
        simp [hu]
      rw [hdrop]
  | none =>
      have hkeep : (base.filter (fun p => (upd.lookup p.1).isNone)).lookup k
          = base.lookup k := by
        refine lookup_filter_keep k _ (fun w => ?_) base
        simp [hu]
      rw [hkeep]
      cases hb : base.lookup k with
      | none => rfl
      | some w => rfl

end OptionGreek

namespace OptionGreek

/-- C10: handling a `market_update` message touches only the entry of
the resolved symbol.  That entry becomes the merge of its previous
fields with the update's fields (update fields win) plus a refreshed
`last_updated` timestamp; every other symbol's entry is unchanged; and a
message whose symbol cannot be resolved (or that carries no data, or is
not a `market_update`) leaves the whole record unchanged. -/
theorem useMarketData_market_update_frame (now : Int) (prev : MarketData)
    (msg : WSMessage) :
    (∀ update sym, msg.type = "market_update" → msg.data = some update →
        resolveSymbol update = some sym →
        ((∀ k, (getEntry (handleMarketUpdate now prev msg) sym).lookup k =
            (if k = "last_updated" then some (JValue.vnum now)
             else
               match update.lookup k with
               | some v => some v
               | none => (getEntry prev sym).lookup k)) ∧
         ∀ s, s ≠ sym →
            (handleMarketUpdate now prev msg).lookup s = prev.lookup s)) ∧
    (∀ update, msg.type = "market_update" → msg.data = some update →
        resolveSymbol update = none → handleMarketUpdate now prev msg = prev) ∧
    (msg.data = none → handleMarketUpdate now prev msg = prev) ∧
    (msg.type ≠ "market_update" → handleMarketUpdate now prev msg = prev) := by
  refine ⟨?_, ?_, ?_, ?_⟩
  · intro update sym htype hdata hsym
    have hrun : handleMarketUpdate now prev msg =
        setPair prev sym
          (setPair (mergeObj (getEntry prev sym) update) "last_updated"
            (JValue.vnum now)) := by
      simp [handleMarketUpdate, htype, hdata, hsym]
    constructor
    · intro k
      have hentry : getEntry (handleMarketUpdate now prev msg) sym =
          setPair (mergeObj (getEntry prev sym) update) "last_updated"
            (JValue.vnum now) := by
        rw [hrun, getEntry, lookup_setPair_self]
        rfl
      rw [hentry]
      by_cases hk : k = "last_updated"
      · subst hk
        rw [lookup_setPair_self, if_pos rfl]
      · rw [lookup_setPair_ne _ _ _ _ hk, if_neg hk, lookup_mergeObj]
    · intro s hs
      rw [hrun, lookup_setPair_ne _ _ _ _ hs]
  · intro update htype hdata hsym
    simp [handleMarketUpdate, htype, hdata, hsym]
  · intro hdata
    simp [handleMarketUpdate, hdata]
  · intro htype
    simp [handleMarketUpdate, htype]

/-- Witness for C10: a concrete update for symbol "A" merges into the
record while "B" is untouched, and an update with no resolvable symbol
is a no-op. -/
theorem useMarketData_market_update_frame_witness :
    ((∀ k, (getEntry (handleMarketUpdate 99
            [("A", [("ltp", JValue.vnum 1), ("x", JValue.vnum 9)]), ("B", [("ltp", JValue.vnum 2)])]
            { type := "market_update", data := some [("symbol", JValue.vstr "A"), ("ltp", JValue.vnum 7)] }) "A").lookup k =
          (if k = "last_updated" then some (JValue.vnum 99)
           else
             match ([("symbol", JValue.vstr "A"), ("ltp", JValue.vnum 7)] : JObj).lookup k with
             | some v => some v
             | none => (getEntry [("A", [("ltp", JValue.vnum 1), ("x", JValue.vnum 9)]), ("B", [("ltp", JValue.vnum 2)])] "A").lookup k)) ∧
      ∀ s, s ≠ "A" →
          (handleMarketUpdate 99
            [("A", [("ltp", JValue.vnum 1), ("x", JValue.vnum 9)]), ("B", [("ltp", JValue.vnum 2)])]
            { type := "market_update", data := some [("symbol", JValue.vstr "A"), ("ltp", JValue.vnum 7)] }).lookup s =
          ([("A", [("ltp", JValue.vnum 1), ("x", JValue.vnum 9)]), ("B", [("ltp", JValue.vnum 2)])] : MarketData).lookup s) ∧
    handleMarketUpdate 99 [("B", [("ltp", JValue.vnum 2)])]
        { type := "market_update", data := some [("d", JValue.vnull)] }
      = [("B", [("ltp", JValue.vnum 2)])] :=
  ⟨(useMarketData_market_update_frame 99
      [("A", [("ltp", JValue.vnum 1), ("x", JValue.vnum 9)]), ("B", [("ltp", JValue.vnum 2)])]
      { type := "market_update", data := some [("symbol", JValue.vstr "A"), ("ltp", JValue.vnum 7)] }).1
      [("symbol", JValue.vstr "A"), ("ltp", JValue.vnum 7)] "A" rfl rfl (by decide),
   (useMarketData_market_update_frame 99 [("B", [("ltp", JValue.vnum 2)])]
      { type := "market_update", data := some [("d", JValue.vnull)] }).2.1
      [("d", JValue.vnull)] rfl rfl (by decide)⟩

end OptionGreek

namespace OptionGreek

/-! ### The exported api object (frontend/lib/api.ts, lines 17-87)

The groups of the `api` object literal and the method names each group
defines, transliterated key by key. -/

def apiAuthMethods : List String :=
  ["getLoginUrl", "getStatus", "autoLogin", "refreshToken"]

def apiMarketMethods : List String :=
  ["getSpotPrice", "getIndices", "getMarketState", "getHistory", "scanStocks",
   "getFnoStocks", "scanHighVolume", "bulkOCAnalysis", "getNiftySentiment",
   "getLiveTradeSignal", "getGreeksHeatmap"]

def apiOptionsMethods : List String := ["getChain", "analyze", "getAdjustments"]

/-- Whether `api.<group>.<method>` resolves to a defined method. -/
def apiMethodDefined (group method : String) : Bool :=
  if group = "auth" then apiAuthMethods.contains method
  else if group = "market" then apiMarketMethods.contains method
  else if group = "options" then apiOptionsMethods.contains method
  else false

/-- The `api.<group>.<method>` call sites of the feature panels, as
(panel, group, method) triples transliterated from each component. -/
def panelApiCalls : List (String × String × String) :=
  [("MarketIndices", "market", "getIndices"),
   ("MarketStateDetector", "market", "getMarketState"),
   ("ActiveStrategy", "market", "getMarketState"),
   ("RealTimeAlerts", "market", "getMarketState"),
   ("OptionChainTable", "options", "getChain"),
   ("NiftySentimentCards", "market", "getNiftySentiment"),
   ("HighVolumeScanner", "market", "scanHighVolume"),
   ("HighVolumeScanner", "market", "bulkOCAnalysis"),
   ("QuantDashboard", "market", "scanHighVolume"),
   ("GreeksHeatmap", "market", "getGreeksHeatmap"),
   ("LiveTradeSignal", "market", "getLiveTradeSignal"),
   ("StockAnalysis", "market", "scanStocks"),
   ("VATScanner", "market", "scanVAT")]

/-! ### Panel polling effects (C5)

Each value transliterates one panel's data-fetching `useEffect` body or
`useApiQuery` options: whether the fetch runs on mount, the
`setInterval` / `refetchInterval` period when one exists, and whether
the effect's cleanup clears the timer (for `useApiQuery` panels the
query library clears its own `refetchInterval` timer on unmount). -/

structure PollingEffect where
  fetchOnMount : Bool
  pollInterval : Option Nat
  clearsTimerOnCleanup : Bool
deriving DecidableEq, Repr

/-- MarketIndices: `fetchIndices(); setInterval(fetchIndices, 10000)`. -/
def marketIndicesPolling : PollingEffect :=
  { fetchOnMount := true, pollInterval := some 10000, clearsTimerOnCleanup := true }

/-- OptionChainTable: `useApiQuery` with `refetchInterval: 30000`. -/
def optionChainTablePolling : PollingEffect :=
  { fetchOnMount := true, pollInterval := some 30000, clearsTimerOnCleanup := true }

/-- MarketStateDetector: `fetchState(); setInterval(fetchState, 30000)`. -/
def marketStateDetectorPolling : PollingEffect :=
  { fetchOnMount := true, pollInterval := some 30000, clearsTimerOnCleanup := true }

/-- ActiveStrategy: `fetchStrategy(); setInterval(fetchStrategy, 30000)`. -/
def activeStrategyPolling : PollingEffect :=
  { fetchOnMount := true, pollInterval := some 30000, clearsTimerOnCleanup := true }

/-- RealTimeAlerts: `fetchAlerts(); setInterval(fetchAlerts, 30000)`. -/
def realTimeAlertsPolling : PollingEffect :=
  { fetchOnMount := true, pollInterval := some 30000, clearsTimerOnCleanup := true }

/-- StockAnalysis: `useApiQuery` with no `refetchInterval`. -/
def stockAnalysisPolling : PollingEffect :=
  { fetchOnMount := true, pollInterval := none, clearsTimerOnCleanup := false }

/-- QuantDashboard: `fetchTopStocks()` once on mount, no timer. -/
def quantDashboardPolling : PollingEffect :=
  { fetchOnMount := true, pollInterval := none, clearsTimerOnCleanup := false }

/-- GreeksHeatmap: `refetchInterval: autoRefresh ? refreshInterval : false`
with defaults `autoRefresh = true`, `refreshInterval = 60000`. -/
def greeksHeatmapPolling : PollingEffect :=
  { fetchOnMount := true, pollInterval := some 60000, clearsTimerOnCleanup := true }

/-- LiveTradeSignal: defaults `autoRefresh = true`, `refreshInterval = 30000`. -/
def liveTradeSignalPolling : PollingEffect :=
  { fetchOnMount := true, pollInterval := some 30000, clearsTimerOnCleanup := true }

/-- HighVolumeScanner: the effect body is `scanStocks();` alone - no
`setInterval`, no cleanup. -/
def highVolumeScannerPolling : PollingEffect :=
  { fetchOnMount := true, pollInterval := none, clearsTimerOnCleanup := false }

/-- VATScanner: `fetchVATData(); setInterval(fetchVATData, 30000)`. -/
def vatScannerPolling : PollingEffect :=
  { fetchOnMount := true, pollInterval := some 30000, clearsTimerOnCleanup := true }

/-- MCPTradingPanel: status/portfolio/orders fetched on mount and tab
change, no timer. -/
def mcpTradingPanelPolling : PollingEffect :=
  { fetchOnMount := true, pollInterval := none, clearsTimerOnCleanup := false }

/-- The feature panels of the dashboard component graph with their
polling effects. -/
def dashboardPanels : List (String × PollingEffect) :=
  [("MarketIndices", marketIndicesPolling),
   ("OptionChainTable", optionChainTablePolling),
   ("MarketStateDetector", marketStateDetectorPolling),
   ("ActiveStrategy", activeStrategyPolling),
   ("RealTimeAlerts", realTimeAlertsPolling),
   ("StockAnalysis", stockAnalysisPolling),
   ("QuantDashboard", quantDashboardPolling),
   ("GreeksHeatmap", greeksHeatmapPolling),
   ("LiveTradeSignal", liveTradeSignalPolling),
   ("HighVolumeScanner", highVolumeScannerPolling),
   ("VATScanner", vatScannerPolling),
   ("MCPTradingPanel", mcpTradingPanelPolling)]

/-- Number of timer ticks strictly before `horizon` (ticks fire at `p`,
`2p`, ...). -/
def pollCount (e : PollingEffect) (horizon : Nat) : Nat :=
  match e.pollInterval with
  | some p => if p = 0 then 0 else (horizon - 1) / p
  | none => 0

/-- The times in `[0, horizon)` at which the panel's fetch function is
invoked: once at mount (time 0) and then at each timer tick until
unmount at `horizon`. -/
def fetchTimes (e : PollingEffect) (horizon : Nat) : List Nat :=
  (if e.fetchOnMount then [0] else []) ++
    (List.range (pollCount e horizon)).map (fun k => (k + 1) * (e.pollInterval.getD 0))

end OptionGreek

namespace OptionGreek

/-! ### Per-panel failure handling (C4)

What each feature panel renders when its HTTP request fails,
transliterated from each component's error branch:

* MarketIndices: `catch` logs to the console, no error state rendered;
* OptionChainTable: error block with a Retry button running `refetch`;
* MarketStateDetector: `setError(...)` is called but the render never
  reads it - no error state rendered;
* ActiveStrategy: `catch` resets the strategy card, no error state;
* RealTimeAlerts: silent `catch`, no error state;
* StockAnalysis: error block showing `error.message`, no Retry control;
* QuantDashboard: `catch` logs to the console, no error state;
* GreeksHeatmap: error block showing `error.message`, no Retry control;
* LiveTradeSignal: error block showing `error.message`, no Retry
  control;
* HighVolumeScanner: error block with a Retry button running
  `scanStocks`;
* VATScanner: error block showing the message, no Retry control;
* MCPTradingPanel: error banner, no Retry control. -/

structure FailureBehavior where
  rendersErrorState : Bool
  hasRetryControl : Bool
deriving DecidableEq, Repr

def panelFailureHandling : List (String × FailureBehavior) :=
  [("MarketIndices", { rendersErrorState := false, hasRetryControl := false }),
   ("OptionChainTable", { rendersErrorState := true, hasRetryControl := true }),
   ("MarketStateDetector", { rendersErrorState := false, hasRetryControl := false }),
   ("ActiveStrategy", { rendersErrorState := false, hasRetryControl := false }),
   ("RealTimeAlerts", { rendersErrorState := false, hasRetryControl := false }),
   ("StockAnalysis", { rendersErrorState := true, hasRetryControl := false }),
   ("QuantDashboard", { rendersErrorState := false, hasRetryControl := false }),
   ("GreeksHeatmap", { rendersErrorState := true, hasRetryControl := false }),
   ("LiveTradeSignal", { rendersErrorState := true, hasRetryControl := false }),
   ("HighVolumeScanner", { rendersErrorState := true, hasRetryControl := true }),
   ("VATScanner", { rendersErrorState := true, hasRetryControl := false }),
   ("MCPTradingPanel", { rendersErrorState := true, hasRetryControl := false })]

/-! ### HighVolumeScanner fetch path and error render
(components/NiftySentimentCards.tsx, lines 371-437 and 822-833) -/

inductive ScanPhase where
  | scanning
  | results
  | analyzing
  | analysis
deriving DecidableEq, Repr

structure ScannerState where
  phase : ScanPhase
  timeframe : String
  scanResult : Option JObj
  error : Option String
  loading : Bool
  scanProgress : Nat
deriving DecidableEq, Repr

inductive ScanEffect where
  | apiRequest (group method : String)
  | startProgressTimer
  | clearProgressTimer
deriving DecidableEq, Repr

/-- One run of `scanStocks`: reset loading/error/phase/progress, start
the progress timer, await `api.market.scanHighVolume(timeframe, 5)`
(its settled result is `outcome`), then either store the result and
enter `results`, or record the error message; `finally` clears the
timer and the loading flag.  The second component lists the effects the
run performs, in order. -/
def scanStocks (st : ScannerState) (outcome : Except String JObj) :
    ScannerState × List ScanEffect :=
  let launched := [ScanEffect.startProgressTimer,
    ScanEffect.apiRequest "market" "scanHighVolume"]
  match outcome with
  | Except.ok result =>
      ({ st with phase := ScanPhase.results, scanResult := some result,
                 error := none, loading := false, scanProgress := 100 },
        launched ++ [ScanEffect.clearProgressTimer])
  | Except.error msg =>
      ({ st with phase := ScanPhase.scanning, error := some msg,
                 loading := false, scanProgress := 0 },
        launched ++ [ScanEffect.clearProgressTimer])

inductive ScannerHandler where
  | runScanStocks
  | runAnalyzeOptionChains
deriving DecidableEq, Repr

structure RetryControl where
  label : String
  onClick : ScannerHandler
deriving DecidableEq, Repr

/-- The scanner's error block is rendered exactly when `error` is set,
and its Retry button's `onClick` is `scanStocks`. -/
def scannerErrorView (st : ScannerState) : Option RetryControl :=
  match st.error with
  | some _ => some { label := "Retry", onClick := ScannerHandler.runScanStocks }
  | none => none

/-- The api request a scanner handler issues when invoked. -/
def handlerRequest : ScannerHandler → ScanEffect
  | ScannerHandler.runScanStocks => ScanEffect.apiRequest "market" "scanHighVolume"
  | ScannerHandler.runAnalyzeOptionChains => ScanEffect.apiRequest "market" "bulkOCAnalysis"

def countApiRequests (l : List ScanEffect) : Nat :=
  (l.filter fun e =>
    match e with
    | ScanEffect.apiRequest _ _ => true
    | _ => false).length

/-! ### OptionChainTable render (frontend/components/OptionChainTable.tsx) -/

inductive ChainViewState where
  | loadingView
  | errorView (message : String) (retry : String × String)
  | tableView
deriving DecidableEq, Repr

/-- The call the query function (and hence `refetch`) performs. -/
def optionChainQueryCall : String × String := ("options", "getChain")

/-- OptionChainTable render: loading without data shows the skeleton; an
error shows `error.message` with a Retry button whose click runs
`refetch()`, re-issuing the query's own `api.options.getChain` call;
otherwise the table. -/
def optionChainRender (isLoading : Bool) (chain : Option JObj)
    (error : Option String) : ChainViewState :=
  if isLoading && chain.isNone then ChainViewState.loadingView
  else
    match error with
    | some msg => ChainViewState.errorView msg optionChainQueryCall
    | none => ChainViewState.tableView

/-! ### MarketStateDetector and heatmap display (C7) -/

structure TradeSetup where
  action : String
  rationale : String
  strikes : List Int
deriving DecidableEq, Repr

structure AdjustmentInfo where
  detected : Bool
  confidence : Int
  conditions : List String
  tradeSetup : Option TradeSetup
deriving DecidableEq, Repr

structure MarketStateData where
  state : String
  confidence : Int
  message : String
  timeWindow : String
  tradable : Bool
  adjustment : Option AdjustmentInfo
deriving DecidableEq, Repr

/-- `state?.state || 'NO-TRADE'`: the market-state badge text. -/
def displayedState (st : Option MarketStateData) : String :=
  match st with
  | some d => if d.state ≠ "" then d.state else "NO-TRADE"
  | none => "NO-TRADE"

/-- The adjustment-signal block: rendered only when
`state?.adjustment?.detected && state.adjustment.trade_setup`, showing
the backend's `action`, `rationale` and adjustment `confidence`
verbatim. -/
def displayedAdjustmentSignal (st : Option MarketStateData) :
    Option (String × String × Int) :=
  match st with
  | some d =>
      match d.adjustment with
      | some adj =>
          if adj.detected then
            match adj.tradeSetup with
            | some setup => some (setup.action, setup.rationale, adj.confidence)
            | none => none
          else none
      | none => none
  | none => none

/-- A row of the Greeks heatmap response; the backend supplies the
`is_atm` flag. -/
structure HeatmapRow where
  strike : Int
  is_atm : Bool
deriving DecidableEq, Repr

/-- GreeksHeatmap highlights a row as ATM exactly when the backend's
`is_atm` field is set. -/
def heatmapRowATM (row : HeatmapRow) : Bool := row.is_atm

/-- OptionChainTable's per-row ATM highlight:
`Math.abs(strike - (chain?.spot_price || 0)) < 25`, computed by the
client from the raw strike and spot prices. -/
def optionRowIsATM (strike : Int) (spot : Option Int) : Bool :=
  decide ((strike - spot.getD 0).natAbs < 25)

/-- The fields of a chain row as typed/used by OptionChainTable; there
is no backend-provided ATM field among them. -/
def optionChainRowFields : List String := ["strike_price", "call", "put"]

end OptionGreek

namespace OptionGreek

/-! ### Lemmas about fetchTimes -/

theorem mem_fetchTimes_zero (e : PollingEffect) (horizon : Nat)
    (h : e.fetchOnMount = true) : 0 ∈ fetchTimes e horizon := by
  rw [fetchTimes, h]
  simp

theorem mem_fetchTimes_of_tick (e : PollingEffect) (p horizon k : Nat)
    (hp : e.pollInterval = some p) (hp1 : 1 ≤ p) (hk : 1 ≤ k)
    (hlt : k * p < horizon) : k * p ∈ fetchTimes e horizon := by
  have hmul : k * p ≤ horizon - 1 := by omega
  have hdiv : k ≤ (horizon - 1) / p := (Nat.le_div_iff_mul_le hp1).mpr hmul
  have hmem : k - 1 ∈ List.range (pollCount e horizon) := by
    simp only [pollCount, hp]
    rw [if_neg (show ¬ p = 0 by omega)]
    exact List.mem_range.mpr (by omega)
  rw [fetchTimes]
  refine List.mem_append_right _ (List.mem_map.mpr ⟨k - 1, hmem, ?_⟩)
  rw [hp]
  show (k - 1 + 1) * p = k * p
  congr 1
  omega

/-- C5 counterexample: HighVolumeScanner is a feature panel that does
not poll - its data-fetching effect installs no timer, so its fetch
runs exactly once per mount - refuting the claim that every panel
re-fetches on a fixed polling interval. -/
theorem panels_all_poll_counterexample :
    ("HighVolumeScanner", highVolumeScannerPolling) ∈ dashboardPanels ∧
    highVolumeScannerPolling.pollInterval = none ∧
    fetchTimes highVolumeScannerPolling 1000000 = [0] ∧
    ¬ (∀ pe ∈ dashboardPanels, pe.2.pollInterval.isSome = true) := by
  refine ⟨by decide, rfl, rfl, ?_⟩
  intro hall
  have := hall ("HighVolumeScanner", highVolumeScannerPolling) (by decide)
  simp [highVolumeScannerPolling] at this

/-- C5 amended: every feature panel fetches once on mount, and every
panel that has a polling timer (in particular MarketIndices at 10000 ms
and MarketStateDetector, RealTimeAlerts, ActiveStrategy and VATScanner
at 30000 ms) re-runs its fetch at each multiple of its fixed period
until unmount and clears the timer in its cleanup; but the panels
without a timer (HighVolumeScanner, StockAnalysis, QuantDashboard,
MCPTradingPanel) fetch only on mount. -/
theorem panels_fixed_polling (horizon k : Nat) (hk : 1 ≤ k) :
    (∀ pe ∈ dashboardPanels, pe.2.fetchOnMount = true ∧ 0 ∈ fetchTimes pe.2 horizon) ∧
    (∀ pe ∈ dashboardPanels, ∀ p, pe.2.pollInterval = some p →
        pe.2.clearsTimerOnCleanup = true ∧
        (k * p < horizon → k * p ∈ fetchTimes pe.2 horizon)) ∧
    (∀ pe ∈ dashboardPanels, pe.2.pollInterval = none →
        fetchTimes pe.2 horizon = [0]) ∧
    marketIndicesPolling.pollInterval = some 10000 ∧
    marketStateDetectorPolling.pollInterval = some 30000 ∧
    realTimeAlertsPolling.pollInterval = some 30000 ∧
    activeStrategyPolling.pollInterval = some 30000 ∧
    vatScannerPolling.pollInterval = some 30000 := by
  refine ⟨?_, ?_, ?_, rfl, rfl, rfl, rfl, rfl⟩
  · intro pe hpe
    have hmount : pe.2.fetchOnMount = true := by
      have hall : ∀ q ∈ dashboardPanels, q.2.fetchOnMount = true := by decide
      exact hall pe hpe
    exact ⟨hmount, mem_fetchTimes_zero pe.2 horizon hmount⟩
  · intro pe hpe p hp
    have hall : ∀ q ∈ dashboardPanels,
        1 ≤ q.2.pollInterval.getD 1 ∧
          (q.2.pollInterval.isSome = true → q.2.clearsTimerOnCleanup = true) := by
      decide
    obtain ⟨h1, h2⟩ := hall pe hpe
    have hp1 : 1 ≤ p := by
      rw [hp] at h1
      simpa using h1
    have hclear : pe.2.clearsTimerOnCleanup = true := h2 (by rw [hp]; rfl)
    exact ⟨hclear, fun hlt => mem_fetchTimes_of_tick pe.2 p horizon k hp hp1 hk hlt⟩
  · intro pe hpe hnone
    have hmount : pe.2.fetchOnMount = true := by
      have hall : ∀ q ∈ dashboardPanels, q.2.fetchOnMount = true := by decide
      exact hall pe hpe
    rw [fetchTimes, hmount, pollCount, hnone]
    simp

/-- Witness for the amended C5: MarketIndices at horizon 100000 ms
fetches at mount and at the third 10000 ms tick. -/
theorem panels_fixed_polling_witness :
    (("MarketIndices", marketIndicesPolling).2.fetchOnMount = true ∧
      0 ∈ fetchTimes ("MarketIndices", marketIndicesPolling).2 100000) ∧
    ("MarketIndices", marketIndicesPolling).2.clearsTimerOnCleanup = true ∧
    3 * 10000 ∈ fetchTimes ("MarketIndices", marketIndicesPolling).2 100000 := by
  have t := panels_fixed_polling 100000 3 (by decide)
  refine ⟨t.1 ("MarketIndices", marketIndicesPolling) (by decide), ?_, ?_⟩
  · exact (t.2.1 ("MarketIndices", marketIndicesPolling) (by decide) 10000 rfl).1
  · exact (t.2.1 ("MarketIndices", marketIndicesPolling) (by decide) 10000 rfl).2 (by decide)

/-- C6 (code bug): VATScanner's fetch path calls `api.market.scanVAT`,
but the exported api object's market group defines no such method, so
the call cannot resolve to a defined function; every other panel call
site does resolve to a defined api method. -/
theorem vatscanner_calls_undefined_method :
    ("VATScanner", "market", "scanVAT") ∈ panelApiCalls ∧
    apiMethodDefined "market" "scanVAT" = false ∧
    ∀ c ∈ panelApiCalls, c.1 ≠ "VATScanner" →
      apiMethodDefined c.2.1 c.2.2 = true := by
  refine ⟨by decide, by decide, by decide⟩

/-- C4 counterexample: the retry-on-click description does not hold of
every feature panel.  GreeksHeatmap renders its error state with no
Retry control at all, and MarketIndices renders no error state on
failure in the first place - so it is false that every panel's failure
handling renders an error state containing a Retry control. -/
theorem panel_retry_universal_counterexample :
    (("GreeksHeatmap", ⟨true, false⟩) : String × FailureBehavior) ∈ panelFailureHandling ∧
    (("MarketIndices", ⟨false, false⟩) : String × FailureBehavior) ∈ panelFailureHandling ∧
    ¬ (∀ pb ∈ panelFailureHandling,
        pb.2.rendersErrorState = true ∧ pb.2.hasRetryControl = true) := by
  refine ⟨by decide, by decide, ?_⟩
  intro hall
  have := hall ("GreeksHeatmap", ⟨true, false⟩) (by decide)
  simp at this

/-- C4 amended: exactly two feature panels, OptionChainTable and
HighVolumeScanner, handle a failed request with a Retry control; for
those two the failure handling is retry-on-click only.  A failed
HighVolumeScanner run records the error message, issues exactly one api
request (the original - the failure triggers no further request), and
its error state renders a Retry control wired to the same `scanStocks`
fetch function, whose click re-issues the same request; a failed
OptionChainTable query renders a Retry button that re-runs the query's
own `api.options.getChain` call.  The remaining panels show the error
without a Retry control, or render no error state at all. -/
theorem panel_retry_on_click (st : ScannerState) (msg : String) (chain : Option JObj) :
    (panelFailureHandling.filter (fun pb => pb.2.hasRetryControl)).map Prod.fst
      = ["OptionChainTable", "HighVolumeScanner"] ∧
    (scanStocks st (Except.error msg)).1.error = some msg ∧
    countApiRequests (scanStocks st (Except.error msg)).2 = 1 ∧
    scannerErrorView (scanStocks st (Except.error msg)).1
      = some { label := "Retry", onClick := ScannerHandler.runScanStocks } ∧
    handlerRequest ScannerHandler.runScanStocks ∈
      (scanStocks (scanStocks st (Except.error msg)).1 (Except.error msg)).2 ∧
    optionChainRender false chain (some msg)
      = ChainViewState.errorView msg optionChainQueryCall := by
  refine ⟨by decide, rfl, rfl, rfl, ?_, rfl⟩
  simp [scanStocks, handlerRequest]

/-- C7 counterexample: OptionChainTable's ATM classification of a
strike is computed client-side from raw prices - the very same strike
is classified ATM or not depending only on the raw spot price - and the
chain row carries no backend ATM field it could be displaying. -/
theorem clientside_atm_counterexample :
    optionRowIsATM 25000 (some 25010) = true ∧
    optionRowIsATM 25000 (some 25100) = false ∧
    "is_atm" ∉ optionChainRowFields := by
  refine ⟨rfl, rfl, by decide⟩

/-- C7 amended: the displayed market-state classification and
adjustment-detection results of MarketStateDetector and the Greeks
heatmap's ATM marking are backend response fields shown verbatim, but
OptionChainTable's ATM strike highlight is derived client-side from the
raw prices as `|strike - spot| < 25`. -/
theorem analytics_displayed_verbatim (d : MarketStateData) (row : HeatmapRow)
    (strike : Int) (spot : Option Int) (hne : d.state ≠ "") :
    displayedState (some d) = d.state ∧
    (∀ adj setup, d.adjustment = some adj → adj.tradeSetup = some setup →
        adj.detected = true →
        displayedAdjustmentSignal (some d)
          = some (setup.action, setup.rationale, adj.confidence)) ∧
    heatmapRowATM row = row.is_atm ∧
    optionRowIsATM strike spot = decide ((strike - spot.getD 0).natAbs < 25) := by
  refine ⟨by simp [displayedState, hne], ?_, rfl, rfl⟩
  intro adj setup hadj hsetup hdet
  simp [displayedAdjustmentSignal, hadj, hsetup, hdet]

/-- Witness for the amended C7 at a concrete TREND state with a
detected adjustment and trade setup. -/
theorem analytics_displayed_verbatim_witness :
    displayedState (some (⟨"TREND", 80, "m", "structure", true, some ⟨true, 75, [], some ⟨"BUY", "r", [25000]⟩⟩⟩ : MarketStateData)) = "TREND" ∧
    displayedAdjustmentSignal (some (⟨"TREND", 80, "m", "structure", true, some ⟨true, 75, [], some ⟨"BUY", "r", [25000]⟩⟩⟩ : MarketStateData)) = some ("BUY", "r", 75) ∧
    heatmapRowATM ⟨25000, true⟩ = true ∧
    optionRowIsATM 25000 (some 25010)
      = decide ((((25000 : Int)) - ((some (25010 : Int)).getD 0)).natAbs < 25) := by
  have t := analytics_displayed_verbatim
    (⟨"TREND", 80, "m", "structure", true, some ⟨true, 75, [], some ⟨"BUY", "r", [25000]⟩⟩⟩ : MarketStateData)
    ⟨25000, true⟩ 25000 (some 25010) (by decide)
  exact ⟨t.1, t.2.1 _ _ rfl rfl rfl, t.2.2.1, t.2.2.2⟩

end OptionGreek

namespace OptionGreek

/-- Witness for C6 at a concrete non-VATScanner call site: the
MarketIndices call does resolve to a defined api method. -/
theorem vatscanner_calls_undefined_method_witness :
    ("MarketIndices", "market", "getIndices") ∈ panelApiCalls ∧
    ("MarketIndices" : String) ≠ "VATScanner" ∧
    apiMethodDefined "market" "getIndices" = true := by
  have t := vatscanner_calls_undefined_method
  exact ⟨by decide, by decide,
    t.2.2 ("MarketIndices", "market", "getIndices") (by decide) (by decide)⟩

end OptionGreek
